import Mathlib

/-
Shallow embedding of the device admission, validation, allocation and
segment bookkeeping layer of the stratisd storage engine
(src/engine/strat_engine/blockdevmgr.rs and
src/engine/strat_engine/backstore/data_tier.rs).

Machine conventions:
* A physical `Device` (the devicemapper device number) is a `Nat`.
* Device node paths (`PathBuf`) and UUIDs are `String`s.
* `Sectors` and `Bytes` are `Nat`s; timestamps (`Timespec`) are `Int`s.
* All device I/O performed by collaborators that live outside the two
  embedded source files (opening a device, reading its size and ownership,
  writing or wiping the on-disk BDA header, the per-device range allocator)
  is represented by an explicit oracle record `Env`, so every function of
  the embedding is a pure function of its inputs and the oracle.
* Loops that write to or wipe devices additionally return a trace of
  `DevAction`s recording which devices were written or wiped, so that claims
  about attempted side effects can be stated.
-/

set_option autoImplicit false

/-- Ownership state of a block device, read from its on-disk static header
(`DevOwnership` in engine.rs, produced by `StaticHeader::determine_ownership`). -/
inductive DevOwnership
  | Unowned
  | Theirs
  | Ours (pool_uuid : String)
deriving DecidableEq

/-- Error classification (`ErrorEnum` in errors.rs). The `Usage` variant is
modelled from the spec error taxonomy (UsageError for save_state misuse);
the source file defining the per-device save path is absent from src. -/
inductive ErrorEnum
  | Ok
  | Error
  | Invalid
  | NotFound
  | Usage
deriving DecidableEq

/-- Structured stand-in for the formatted error strings the source builds
with format!. Each constructor keeps exactly the data the corresponding
format string interpolates. -/
inductive ErrMsg
  | text (s : String)
  | noDevnode (dev : Nat)
  | devTooSmall (devnode : String)
  | belongsToOther (devnode : String)
  | belongsToPool (devnode : String) (pool_uuid : String)
  | badMdaSize (size : Nat)
  | initFailed (devnode : String) (unerased : List String)
  | missingDevice (dev_uuid : String)
  | staleTimestamp (devnode : String)
  | metadataTooLarge (devnode : String)
  | wipeFailed (devnode : String)
deriving DecidableEq

/-- `EngineError` from errors.rs: an engine-classified error or an I/O error. -/
inductive EngineError
  | engine (kind : ErrorEnum) (msg : ErrMsg)
  | Io (msg : ErrMsg)
deriving DecidableEq

/-- The tuple returned by `dev_info` inside `initialize`: device node path,
size in bytes, ownership. The open `File` handle is represented by the
device number itself in the oracles. -/
structure DevInfo where
  devnode : String
  dev_size : Nat
  ownership : DevOwnership
deriving DecidableEq

/-- The BDA (block device area) header written to a device by
`BDA::initialize` (metadata.rs, absent from src). Modelled from the spec:
it records the pool identity, the fresh device UUID, the reserved
metadata-area size and the device size, plus the timestamp of the last
metadata save (for the monotonicity check described in the save_state
comment in blockdevmgr.rs). -/
structure BDA where
  pool_uuid : String
  dev_uuid : String
  mda_size : Nat
  dev_size : Nat
  last_updated : Option Int
deriving DecidableEq

/-- Modelled from the spec: the on-device footprint of the BDA, the reserved
metadata area at the start of the device (`bda.size()` in the source). -/
def BDA.size (b : BDA) : Nat := b.mda_size

/-- `Bytes::sectors()` from devicemapper: byte count converted to 512-byte
sectors. -/
def Bytes.sectors (b : Nat) : Nat := b / 512

/-- Modelled from the spec: the per-device allocator (range_alloc.rs, absent
from src) tracks the free extents of one device as (start, length) pairs
and serves first-fit requests over them. -/
structure RangeAllocator where
  free : List (Nat × Nat)
deriving DecidableEq

/-- Modelled from the spec: `RangeAllocator::new(limit, used)` as called in
`initialize`, where the used ranges are always the single reserved
metadata prefix, so the free space is the device's entire addressable
range minus the reserved metadata area. -/
def RangeAllocator.new (limit : Nat) (reserved : Nat) : RangeAllocator :=
  ⟨[(reserved, limit - reserved)]⟩

/-- Sum of the lengths of a list of (start, length) extents. -/
def pairSum (l : List (Nat × Nat)) : Nat := (l.map Prod.snd).sum

/-- Free space tracked by an allocator. -/
def RangeAllocator.available (r : RangeAllocator) : Nat := pairSum r.free

/-- Modelled from the spec: first-fit request over the free extents.
Returns (granted amount, granted extents, remaining free extents); the
granted amount is whatever of `needed` the free extents can cover. -/
def requestGo : List (Nat × Nat) → Nat → Nat × List (Nat × Nat) × List (Nat × Nat)
  | [], _ => (0, [], [])
  | (s, l) :: rest, needed =>
    if needed = 0 then (0, [], (s, l) :: rest)
    else if l ≤ needed then
      let r := requestGo rest (needed - l)
      (l + r.1, (s, l) :: r.2.1, r.2.2)
    else
      (needed, [(s, needed)], (s + needed, l - needed) :: rest)

/-- A `devicemapper` `Segment`: a (device, start, length) extent. -/
structure Segment where
  device : Nat
  start : Nat
  length : Nat
deriving DecidableEq

/-- Sum of the lengths of a list of segments. -/
def segSum (l : List Segment) : Nat := (l.map Segment.length).sum

/-- A validated, initialized block device belonging to a pool
(`BlockDev` in blockdev.rs, absent from src; fields are the ones the
embedded code reads: device number, device node path, BDA header and
per-device allocator). -/
structure BlockDev where
  dev : Nat
  devnode : String
  bda : BDA
  allocator : RangeAllocator
deriving DecidableEq

/-- `BlockDev::available()`: free space left on the device. -/
def BlockDev.available (bd : BlockDev) : Nat := bd.allocator.available

/-- `BlockDev::request_space(needed)`: first-fit allocation on one device,
returning the amount actually granted, the granted segments (tagged with
this device's number) and the updated device. -/
def BlockDev.request_space (bd : BlockDev) (needed : Nat) :
    Nat × List Segment × BlockDev :=
  let r := requestGo bd.allocator.free needed
  (r.1, r.2.1.map (fun p => ⟨bd.dev, p.1, p.2⟩), { bd with allocator := ⟨r.2.2⟩ })

/-- The ordered collection of block devices of one pool (`BlockDevMgr`). -/
structure BlockDevMgr where
  block_devs : List BlockDev
deriving DecidableEq

/-- Oracle record standing for all device I/O performed by collaborators
outside the embedded source files. Each field gives the outcome the
external world would produce for a given device:
* `pathDev`: `Device::from_str` on a path (resolution to a device number),
* `devInfo`: the result of `dev_info` (open, size query, ownership probe),
* `bdaInit`: `BDA::initialize` writing the header; `some uuid` means the
  write succeeded and `uuid` is the freshly generated device UUID,
  `none` means the write failed,
* `bdaWipe`: `BDA::wipe` on the device's open file (`some e` = failure),
* `wipeMeta`: `BlockDev::wipe_metadata` (`some e` = failure),
* `saveRes`: the I/O outcome of the per-device metadata save
  (`some e` = failure). -/
structure Env where
  pathDev : String → Except EngineError Nat
  devInfo : Nat → Except EngineError DevInfo
  bdaInit : Nat → Option String
  bdaWipe : Nat → Option EngineError
  wipeMeta : Nat → Option EngineError
  saveRes : Nat → Option EngineError

/-- Trace of device-mutating actions: attempted BDA header writes and
attempted metadata wipes. -/
inductive DevAction
  | bdaInitAttempt (dev : Nat)
  | bdaWipeAttempt (dev : Nat)
  | wipeMetaAttempt (dev : Nat)
deriving DecidableEq

/-- `IEC::Gi` from consts.rs: one gibibyte. -/
def IEC.Gi : Nat := 1073741824

/-- `MIN_DEV_SIZE` in blockdevmgr.rs: minimum admissible device size,
one GiB in bytes. -/
def MIN_DEV_SIZE : Nat := IEC.Gi

/-- Modelled from the spec: `MIN_MDA_SECTORS` from metadata.rs (absent from
src), the minimum (and default) reserved metadata-area size in sectors.
The numeric value is a stand-in for the policy constant; no claim depends
on it. -/
def MIN_MDA_SECTORS : Nat := 2032

/-- Modelled from the spec: `validate_mda_size` from metadata.rs (absent
from src) checks the requested metadata-area size against the allowed
range and reports an InvalidInput-class error otherwise. -/
def validate_mda_size (size : Nat) : Except EngineError Unit :=
  if size < MIN_MDA_SECTORS then .error (.engine .Invalid (.badMdaSize size))
  else .ok ()

/-- One admitted device as produced by `filter_devs`: the (dev, (devnode,
dev_size, file)) tuple of the source, the file handle being implicit. -/
structure AdmDev where
  dev : Nat
  devnode : String
  dev_size : Nat
deriving DecidableEq

/-- `filter_devs` from `initialize` in blockdevmgr.rs: walks the gathered
device infos in order; propagates any gather error; rejects the whole
batch if a device is smaller than `MIN_DEV_SIZE`; admits Unowned devices;
admits Theirs devices only under `force`, otherwise rejects the batch;
silently skips devices owned by this pool; rejects the batch for devices
owned by another pool. -/
def filter_devs :
    List (Nat × Except EngineError DevInfo) → String → Bool →
    Except EngineError (List AdmDev)
  | [], _, _ => .ok []
  | (dev, dev_result) :: rest, pool_uuid, force =>
    match dev_result with
    | .error e => .error e
    | .ok info =>
      if info.dev_size < MIN_DEV_SIZE then
        .error (.engine .Invalid (.devTooSmall info.devnode))
      else
        match info.ownership with
        | .Unowned =>
          match filter_devs rest pool_uuid force with
          | .ok l => .ok (⟨dev, info.devnode, info.dev_size⟩ :: l)
          | .error e => .error e
        | .Theirs =>
          if !force then .error (.engine .Invalid (.belongsToOther info.devnode))
          else
            match filter_devs rest pool_uuid force with
            | .ok l => .ok (⟨dev, info.devnode, info.dev_size⟩ :: l)
            | .error e => .error e
        | .Ours uuid =>
          if pool_uuid ≠ uuid then
            .error (.engine .Invalid (.belongsToPool info.devnode uuid))
          else
            filter_devs rest pool_uuid force

/-- The Device Record built by the write phase for one admitted device when
its BDA write succeeds: the BDA holds the oracle-provided fresh UUID, the
given metadata-area size and the device size in sectors, and the allocator
is seeded with the whole device minus the reserved metadata area. -/
def mkBlockDev (env : Env) (pool_uuid : String) (mda_size : Nat) (a : AdmDev) :
    BlockDev :=
  let bda : BDA :=
    ⟨pool_uuid, (env.bdaInit a.dev).getD "", mda_size, Bytes.sectors a.dev_size, none⟩
  ⟨a.dev, a.devnode, bda, RangeAllocator.new bda.dev_size bda.size⟩

/-- The write phase of `initialize` in blockdevmgr.rs: for each admitted
device in order, attempt the BDA header write. On the first failure, wipe
the failing device's header, then wipe the metadata of every device
already built in this batch, collecting the device nodes whose wipe also
failed, and return an Error-kind error naming the failing device node and
that list (the source emits one of two format strings according to whether
the list is empty; `ErrMsg.initFailed` keeps both pieces). On success the
built Device Records are returned in admission order. The second component
traces every attempted header write and wipe. -/
def write_phase (env : Env) (pool_uuid : String) (mda_size : Nat) :
    List AdmDev → List BlockDev →
    Except EngineError (List BlockDev) × List DevAction
  | [], bds => (.ok bds, [])
  | a :: rest, bds =>
    match env.bdaInit a.dev with
    | some dev_uuid =>
      let bda : BDA := ⟨pool_uuid, dev_uuid, mda_size, Bytes.sectors a.dev_size, none⟩
      let bd : BlockDev := ⟨a.dev, a.devnode, bda, RangeAllocator.new bda.dev_size bda.size⟩
      let r := write_phase env pool_uuid mda_size rest (bds ++ [bd])
      (r.1, .bdaInitAttempt a.dev :: r.2)
    | none =>
      let unerased : List String :=
        (if (env.bdaWipe a.dev).isSome then [a.devnode] else []) ++
          (bds.filter (fun bd => (env.wipeMeta bd.dev).isSome)).map BlockDev.devnode
      (.error (.engine .Error (.initFailed a.devnode unerased)),
       [.bdaInitAttempt a.dev, .bdaWipeAttempt a.dev] ++
         bds.map (fun bd => .wipeMetaAttempt bd.dev))

/-- The free function `initialize` in blockdevmgr.rs (named `init_devs`
here): validate the metadata-area size, gather per-device info, filter,
then run the write phase starting from an empty batch. Errors raised
before the write phase leave an empty action trace: nothing was written. -/
def init_devs (env : Env) (pool_uuid : String) (devices : List Nat)
    (mda_size : Nat) (force : Bool) :
    Except EngineError (List BlockDev) × List DevAction :=
  match validate_mda_size mda_size with
  | .error e => (.error e, [])
  | .ok _ =>
    match filter_devs (devices.map (fun d => (d, env.devInfo d))) pool_uuid force with
    | .error e => (.error e, [])
    | .ok add_devs => write_phase env pool_uuid mda_size add_devs []

/-- `resolve_devices` in blockdevmgr.rs: resolve each path to a device
number, failing on the first unresolvable path. The source collects into a
`HashSet`; the set is modelled as a duplicate-free list in first-occurrence
order. -/
def resolveGo (env : Env) : List String → List Nat → Except EngineError (List Nat)
  | [], acc => .ok acc
  | p :: rest, acc =>
    match env.pathDev p with
    | .error e => .error e
    | .ok d => resolveGo env rest (if d ∈ acc then acc else acc ++ [d])

/-- `resolve_devices` entry point. -/
def resolve_devices (env : Env) (paths : List String) :
    Except EngineError (List Nat) :=
  resolveGo env paths []

/-- `BlockDevMgr::avail_space()`: unused space left on the blockdevs. -/
def BlockDevMgr.avail_space (mgr : BlockDevMgr) : Nat :=
  (mgr.block_devs.map BlockDev.available).sum

/-- Result of `BlockDevMgr::alloc_space`. `noAlloc` is the `None` return for
insufficient space; `granted` carries the allocated segments and the
updated manager; `panicked` is the `assert_eq!(needed, Sectors(0))`
firing after the device loop. -/
inductive AllocSpaceResult
  | noAlloc
  | granted (segs : List Segment) (mgr : BlockDevMgr)
  | panicked
deriving DecidableEq

/-- The device loop inside `alloc_space`: walk the devices in manager
order, stopping early once nothing more is needed, pulling first-fit
grants from each device. Returns (granted segments, updated devices,
remaining unsatisfied amount). -/
def allocLoop : List BlockDev → Nat → List Segment × List BlockDev × Nat
  | [], needed => ([], [], needed)
  | bd :: rest, needed =>
    if needed = 0 then ([], bd :: rest, 0)
    else
      let r := bd.request_space needed
      let q := allocLoop rest (needed - r.1)
      (r.2.1 ++ q.1, r.2.2 :: q.2.1, q.2.2)

/-- `BlockDevMgr::alloc_space(size)` from blockdevmgr.rs: return `noAlloc`
when available space is under `size`, otherwise run the device loop and
assert that the request was fully satisfied. -/
def BlockDevMgr.alloc_space (mgr : BlockDevMgr) (size : Nat) : AllocSpaceResult :=
  if mgr.avail_space < size then .noAlloc
  else
    let r := allocLoop mgr.block_devs size
    if r.2.2 = 0 then .granted r.1 ⟨r.2.1⟩ else .panicked

/-- `BlockDevMgr::add` in blockdevmgr.rs: resolve the paths, initialize the
new devices with `MIN_MDA_SECTORS`, append them to the collection and
return their device node paths. -/
def BlockDevMgr.add (env : Env) (mgr : BlockDevMgr) (pool_uuid : String)
    (paths : List String) (force : Bool) :
    Except EngineError (List String × BlockDevMgr) × List DevAction :=
  match resolve_devices env paths with
  | .error e => (.error e, [])
  | .ok devices =>
    match init_devs env pool_uuid devices MIN_MDA_SECTORS force with
    | (.error e, tr) => (.error e, tr)
    | (.ok bds, tr) =>
      (.ok (bds.map BlockDev.devnode, ⟨mgr.block_devs ++ bds⟩), tr)

/-- The loop of `BlockDevMgr::destroy_all`: wipe each device in order; the
source wraps each wipe in `try!`, so the first failure is returned
immediately and no later device is attempted. The trace records each
attempted wipe. -/
def destroyGo (env : Env) : List BlockDev → Except EngineError Unit × List DevAction
  | [] => (.ok (), [])
  | bd :: rest =>
    match env.wipeMeta bd.dev with
    | some e => (.error e, [.wipeMetaAttempt bd.dev])
    | none =>
      let r := destroyGo env rest
      (r.1, .wipeMetaAttempt bd.dev :: r.2)

/-- `BlockDevMgr::destroy_all`, consuming the manager. -/
def BlockDevMgr.destroy_all (env : Env) (mgr : BlockDevMgr) :
    Except EngineError Unit × List DevAction :=
  destroyGo env mgr.block_devs

/-- Modelled from the spec: the per-device metadata save
(`BlockDev::save_state` / `BDA::save_state`, blockdev.rs and metadata.rs
being absent from src). Per the comment in `BlockDevMgr::save_state` and
the spec, it fails when the timestamp is not strictly newer than the
device's last recorded one, or when the payload exceeds the device's
reserved metadata capacity; otherwise the I/O outcome is the oracle's.
On success the device's last-updated stamp advances. -/
def BlockDev.save_state (env : Env) (bd : BlockDev) (time : Int)
    (metadata : List Nat) : Except EngineError BlockDev :=
  match bd.bda.last_updated with
  | some t =>
    if time ≤ t then .error (.engine .Usage (.staleTimestamp bd.devnode))
    else BlockDev.save_state_io env bd time metadata
  | none => BlockDev.save_state_io env bd time metadata
where
  /-- Capacity check and I/O outcome of the save. -/
  BlockDev.save_state_io (env : Env) (bd : BlockDev) (time : Int)
      (metadata : List Nat) : Except EngineError BlockDev :=
    if bd.bda.mda_size * 512 < metadata.length then
      .error (.engine .Usage (.metadataTooLarge bd.devnode))
    else
      match env.saveRes bd.dev with
      | some e => .error e
      | none => .ok { bd with bda := { bd.bda with last_updated := some time } }

/-- Outcome of `BlockDevMgr::save_state`. The Rust signature returns
`EngineResult<()>`, but the body unwraps every per-device save, so the
only possible outcomes are success and a process panic: the result type
deliberately has no error constructor. -/
inductive SaveOutcome
  | ok (mgr : BlockDevMgr)
  | panicked (e : EngineError)
deriving DecidableEq

/-- The loop of `BlockDevMgr::save_state`: save to each device in order,
`.unwrap()`ing the result, so any failure becomes a panic. -/
def saveGo (env : Env) (time : Int) (metadata : List Nat) :
    List BlockDev → Except EngineError (List BlockDev)
  | [] => .ok []
  | bd :: rest =>
    match BlockDev.save_state env bd time metadata with
    | .error e => .error e
    | .ok bd2 =>
      match saveGo env time metadata rest with
      | .ok l => .ok (bd2 :: l)
      | .error e => .error e

/-- `BlockDevMgr::save_state(time, metadata)` from blockdevmgr.rs: write the
given data to all blockdevs; a failing per-device save is unwrapped and
hence panics the process instead of being returned. -/
def BlockDevMgr.save_state (env : Env) (mgr : BlockDevMgr) (time : Int)
    (metadata : List Nat) : SaveOutcome :=
  match saveGo env time metadata mgr.block_devs with
  | .error e => .panicked e
  | .ok devs => .ok ⟨devs⟩

/-- `BlkDevSegment` from the newer blockdevmgr (absent from src, used by
data_tier.rs): a segment tagged with the owning device's UUID so it
survives device renumbering across restarts. -/
structure BlkDevSegment where
  uuid : String
  segment : Segment
deriving DecidableEq

/-- Modelled from the spec: `coalesce_blkdevsegs` (newer blockdevmgr,
absent from src). Helper walking the concatenated list, merging the
current segment with the next one whenever they carry the same device
UUID and are adjacent. -/
def coalesceGo : BlkDevSegment → List BlkDevSegment → List BlkDevSegment
  | cur, [] => [cur]
  | cur, s :: rest =>
    if cur.uuid = s.uuid ∧ cur.segment.start + cur.segment.length = s.segment.start
    then
      coalesceGo
        { cur with segment := { cur.segment with length := cur.segment.length + s.segment.length } }
        rest
    else cur :: coalesceGo s rest

/-- Modelled from the spec: `coalesce_blkdevsegs(existing, additional)`
merges the two lists into a minimal list by coalescing adjacent
same-device segments. -/
def coalesce_blkdevsegs (existing additional : List BlkDevSegment) :
    List BlkDevSegment :=
  match existing ++ additional with
  | [] => []
  | x :: xs => coalesceGo x xs

/-- Modelled from the spec: `uuid_to_devno` (newer blockdevmgr, absent from
src) resolves a device UUID to the live device number of the matching
Device Record of the manager, if any. -/
def BlockDevMgr.uuid_to_devno (mgr : BlockDevMgr) (uuid : String) : Option Nat :=
  (mgr.block_devs.find? (fun bd => bd.bda.dev_uuid = uuid)).map BlockDev.dev

/-- Result of the list-of-requests `BlockDevMgr::alloc_space` consumed by
`DataTier::alloc` (newer blockdevmgr, absent from src). `panicked` stands
for the defensive assertion firing on a partially unsatisfied request. -/
inductive AllocListResult
  | noAlloc
  | granted (grants : List (List BlkDevSegment)) (mgr : BlockDevMgr)
  | panicked
deriving DecidableEq

/-- Device loop for one request of the list-of-requests allocation: as
`allocLoop`, but each granted segment is tagged with its device's UUID,
giving `BlkDevSegment`s. -/
def allocLoopTagged : List BlockDev → Nat → List BlkDevSegment × List BlockDev × Nat
  | [], needed => ([], [], needed)
  | bd :: rest, needed =>
    if needed = 0 then ([], bd :: rest, 0)
    else
      let r := bd.request_space needed
      let q := allocLoopTagged rest (needed - r.1)
      (r.2.1.map (fun s => ⟨bd.bda.dev_uuid, s⟩) ++ q.1, r.2.2 :: q.2.1, q.2.2)

/-- Modelled from the spec: satisfy each requested length in turn from the
devices in manager order; `none` stands for the defensive assertion firing
because some request ended partially unsatisfied. -/
def allocMultiGo : List Nat → List BlockDev →
    Option (List (List BlkDevSegment) × List BlockDev)
  | [], devs => some ([], devs)
  | sz :: rest, devs =>
    let r := allocLoopTagged devs sz
    if r.2.2 = 0 then
      match allocMultiGo rest r.2.1 with
      | some (gs, devs2) => some (r.1 :: gs, devs2)
      | none => none
    else none

/-- Modelled from the spec: `alloc_space(sizes)` of the newer manager
(absent from src): first check that the total available space covers the
total requested; if not, return no allocation; otherwise walk the devices
per request. -/
def BlockDevMgr.alloc_space_list (mgr : BlockDevMgr) (sizes : List Nat) :
    AllocListResult :=
  if mgr.avail_space < sizes.sum then .noAlloc
  else
    match allocMultiGo sizes mgr.block_devs with
    | some (gs, devs) => .granted gs ⟨devs⟩
    | none => .panicked

/-- `DataTier` from data_tier.rs: a block device manager plus the list of
segments granted by it and used by the upper DM device. -/
structure DataTier where
  block_mgr : BlockDevMgr
  segments : List BlkDevSegment
deriving DecidableEq

/-- The `mapper` closure inside `DataTier::setup`: resolve one persisted
(device-uuid, start, length) triple to a `BlkDevSegment` against the live
manager, failing with a NotFound-class error when the UUID is absent. -/
def setupMapper (mgr : BlockDevMgr) (t : String × Nat × Nat) :
    Except EngineError BlkDevSegment :=
  match mgr.uuid_to_devno t.1 with
  | none => .error (.engine .NotFound (.missingDevice t.1))
  | some device => .ok ⟨t.1, ⟨device, t.2.1, t.2.2⟩⟩

/-- The `collect::<StratisResult<Vec<_>>>` over the mapped triples in
`DataTier::setup`: all-or-first-error traversal in input order. -/
def setupGo (mgr : BlockDevMgr) :
    List (String × Nat × Nat) → Except EngineError (List BlkDevSegment)
  | [] => .ok []
  | t :: rest =>
    match setupMapper mgr t with
    | .error e => .error e
    | .ok s =>
      match setupGo mgr rest with
      | .ok l => .ok (s :: l)
      | .error e => .error e

/-- `DataTier::setup(block_mgr, segments)` from data_tier.rs: reconstruct a
tier from persisted segment triples. -/
def DataTier.setup (mgr : BlockDevMgr) (segments : List (String × Nat × Nat)) :
    Except EngineError DataTier :=
  match setupGo mgr segments with
  | .ok segs => .ok ⟨mgr, segs⟩
  | .error e => .error e

/-- `DataTier::new(block_mgr)` from data_tier.rs: a tier with no segments. -/
def DataTier.new (mgr : BlockDevMgr) : DataTier := ⟨mgr, []⟩

/-- `DataTier::alloc(request)` from data_tier.rs: ask the manager for the
requested sectors; on a grant, coalesce the flattened new segments into
the tier's segment list and return true; on insufficient space return
false with the tier unchanged. `none` propagates the manager's defensive
assertion (a panic, not a return). -/
def DataTier.alloc (tier : DataTier) (request : Nat) : Option (Bool × DataTier) :=
  match tier.block_mgr.alloc_space_list [request] with
  | .granted grants mgr2 =>
    some (true, ⟨mgr2, coalesce_blkdevsegs tier.segments grants.flatten⟩)
  | .noAlloc => some (false, tier)
  | .panicked => none

/-- Sum of the free space of a list of devices (spec-side helper; equals
`BlockDevMgr.avail_space` on the manager holding that list). -/
def availSum (devs : List BlockDev) : Nat := (devs.map BlockDev.available).sum

/-- Spec-side helper naming the device nodes left unerased by the rollback
of a failed write phase: the failing device's node when its header wipe
failed, followed by the nodes of the previously written devices whose
metadata wipe failed, in admission order. -/
def rollbackUnerased (env : Env) (dv : AdmDev) (pre : List AdmDev) : List String :=
  (if (env.bdaWipe dv.dev).isSome then [dv.devnode] else []) ++
    (pre.filter (fun a => (env.wipeMeta a.dev).isSome)).map AdmDev.devnode

/-- Spec-side predicate: an ownership state under which `filter_devs` does
not reject the batch (admissible for pool `pool_uuid` under `force`). -/
def admissibleOwnership (pool_uuid : String) (force : Bool) (o : DevOwnership) : Prop :=
  o = .Unowned ∨ (o = .Theirs ∧ force = true) ∨ o = .Ours pool_uuid

instance (pool_uuid : String) (force : Bool) (o : DevOwnership) :
    Decidable (admissibleOwnership pool_uuid force o) := by
  unfold admissibleOwnership; infer_instance

/-- Spec-side predicate: ownership states under which the device is
actually admitted (as opposed to silently skipped). -/
def admittedOwnership (o : DevOwnership) : Bool :=
  match o with
  | .Ours _ => false
  | _ => true

/-- A device size comfortably above `MIN_DEV_SIZE` (2 GiB), used by the
concrete witnesses below. -/
def bigSize : Nat := 2 * IEC.Gi

/-- Witness fixture: environment for the write-failure rollback scenario.
Device 1 gathers fine and its header write succeeds; device 2 gathers
fine but its header write fails; wiping device 2's header succeeds while
wiping device 1's fresh metadata fails. -/
def envC1 : Env where
  pathDev := fun _ => .error (.Io (.text "unused"))
  devInfo := fun d =>
    if d = 1 then .ok ⟨"n1", bigSize, .Unowned⟩
    else if d = 2 then .ok ⟨"n2", bigSize, .Unowned⟩
    else .error (.Io (.text "no such device"))
  bdaInit := fun d => if d = 1 then some "u1" else none
  bdaWipe := fun _ => none
  wipeMeta := fun d =>
    if d = 1 then some (.Io (.wipeFailed "n1")) else none
  saveRes := fun _ => none

/-- Witness fixture: environment with a single undersized device. -/
def envC2 : Env where
  pathDev := fun _ => .error (.Io (.text "unused"))
  devInfo := fun d =>
    if d = 1 then .ok ⟨"n1", 100, .Unowned⟩
    else .error (.Io (.text "no such device"))
  bdaInit := fun _ => none
  bdaWipe := fun _ => none
  wipeMeta := fun _ => none
  saveRes := fun _ => none

/-- Witness fixture: a manager with 5 and 3 free sectors on two devices. -/
def mgrC3 : BlockDevMgr :=
  ⟨[⟨1, "n1", ⟨"p", "u1", 10, 100, none⟩, ⟨[(10, 5)]⟩⟩,
    ⟨2, "n2", ⟨"p", "u2", 10, 100, none⟩, ⟨[(10, 3)]⟩⟩]⟩

/-- Witness fixture: gathered infos exercising each admissible ownership
state (unowned, foreign-but-forced, ours under the same pool). -/
def infosC4 : List (Nat × DevInfo) :=
  [(1, ⟨"n1", bigSize, .Unowned⟩),
   (4, ⟨"n4", bigSize, .Theirs⟩),
   (5, ⟨"n5", bigSize, .Ours "p"⟩)]

/-- Witness fixture: a tier with one device holding 5 free sectors. -/
def tierC5 : DataTier :=
  ⟨⟨[⟨1, "n1", ⟨"p", "u1", 10, 100, none⟩, ⟨[(10, 5)]⟩⟩]⟩, []⟩

/-- Fixture for the save_state divergence: a device whose metadata was last
saved at timestamp 10, in an environment where the raw I/O succeeds. -/
def bdC6 : BlockDev := ⟨1, "n6", ⟨"p", "u6", 10, 100, some 10⟩, ⟨[(10, 5)]⟩⟩

/-- Fixture environment where every raw save I/O succeeds. -/
def envC6 : Env where
  pathDev := fun _ => .error (.Io (.text "unused"))
  devInfo := fun _ => .error (.Io (.text "unused"))
  bdaInit := fun _ => none
  bdaWipe := fun _ => none
  wipeMeta := fun _ => none
  saveRes := fun _ => none

/-- Fixture manager for the save_state divergence. -/
def mgrC6 : BlockDevMgr := ⟨[bdC6]⟩

/-- Fixture: wiping device 1 fails, wiping device 2 would succeed. -/
def envC7 : Env where
  pathDev := fun _ => .error (.Io (.text "unused"))
  devInfo := fun _ => .error (.Io (.text "unused"))
  bdaInit := fun _ => none
  bdaWipe := fun _ => none
  wipeMeta := fun d => if d = 1 then some (.Io (.wipeFailed "n1")) else none
  saveRes := fun _ => none

/-- Fixture manager with two devices, the first of which fails to wipe. -/
def mgrC7 : BlockDevMgr :=
  ⟨[⟨1, "n1", ⟨"p", "u1", 10, 100, none⟩, ⟨[(10, 5)]⟩⟩,
    ⟨2, "n2", ⟨"p", "u2", 10, 100, none⟩, ⟨[(10, 3)]⟩⟩]⟩

/-- Fixture environment for `BlockDevMgr::add`: path p8 resolves to device
8, which is unowned, large enough, and whose header write succeeds with
fresh UUID u8. -/
def envC8 : Env where
  pathDev := fun p =>
    if p = "p8" then .ok 8 else .error (.Io (.text "no such path"))
  devInfo := fun d =>
    if d = 8 then .ok ⟨"n8", bigSize, .Unowned⟩
    else .error (.Io (.text "no such device"))
  bdaInit := fun d => if d = 8 then some "u8" else none
  bdaWipe := fun _ => none
  wipeMeta := fun _ => none
  saveRes := fun _ => none

/-- Fixture: the manager `add` is called on, already holding device 7. -/
def mgrC8 : BlockDevMgr :=
  ⟨[⟨7, "n7", ⟨"p", "u7", 4096, 4194304, none⟩, ⟨[(4096, 100)]⟩⟩]⟩

/-- The Device Record `add` builds for device 8 in the fixture run. -/
def bdC8 : BlockDev :=
  ⟨8, "n8", ⟨"p", "u8", MIN_MDA_SECTORS, Bytes.sectors bigSize, none⟩,
   RangeAllocator.new (Bytes.sectors bigSize) MIN_MDA_SECTORS⟩

/-- Fixture manager for `DataTier::setup`: one device, number 9, whose
persisted UUID is u9. -/
def mgrC9 : BlockDevMgr :=
  ⟨[⟨9, "n9", ⟨"p", "u9", 10, 100, none⟩, ⟨[(10, 5)]⟩⟩]⟩

/-- Fixture triples for `DataTier::setup`. -/
def triplesC9 : List (String × Nat × Nat) := [("u9", 5, 7)]

/-! ## Allocator lemmas -/

theorem requestGo_spec : ∀ (f : List (Nat × Nat)) (n : Nat),
    (requestGo f n).1 = min n (pairSum f) ∧
    pairSum (requestGo f n).2.1 = (requestGo f n).1 ∧
    pairSum (requestGo f n).2.2 = pairSum f - (requestGo f n).1
  | [], n => by simp [requestGo, pairSum]
  | (s, l) :: rest, n => by
    have ih := requestGo_spec rest (n - l)
    simp only [requestGo, pairSum, List.map_cons, List.sum_cons]
    split
    · subst_eqs
      simp [pairSum]
    · split
      · simp only [List.map_cons, List.sum_cons]
        unfold pairSum at ih
        omega
      · simp only [List.map_cons, List.sum_cons, List.map_nil, List.sum_nil]
        omega

theorem segSum_map_mk (d : Nat) (l : List (Nat × Nat)) :
    segSum (l.map (fun p => ⟨d, p.1, p.2⟩)) = pairSum l := by
  induction l with
  | nil => simp [segSum, pairSum]
  | cons p rest ih => simp [segSum, pairSum] at ih ⊢; omega

theorem request_space_spec (bd : BlockDev) (needed : Nat) :
    (bd.request_space needed).1 = min needed bd.available ∧
    segSum (bd.request_space needed).2.1 = (bd.request_space needed).1 ∧
    (bd.request_space needed).2.2.available = bd.available - (bd.request_space needed).1 := by
  have h := requestGo_spec bd.allocator.free needed
  simp only [BlockDev.request_space, BlockDev.available, RangeAllocator.available]
  exact ⟨h.1, by rw [segSum_map_mk]; exact h.2.1, h.2.2⟩

theorem allocLoop_cons (bd : BlockDev) (rest : List BlockDev) (n : Nat) (h : n ≠ 0) :
    allocLoop (bd :: rest) n =
      ((bd.request_space n).2.1 ++ (allocLoop rest (n - (bd.request_space n).1)).1,
       (bd.request_space n).2.2 :: (allocLoop rest (n - (bd.request_space n).1)).2.1,
       (allocLoop rest (n - (bd.request_space n).1)).2.2) := by
  simp [allocLoop, h]

theorem allocLoop_spec : ∀ (devs : List BlockDev) (n : Nat),
    (allocLoop devs n).2.2 = n - availSum devs ∧
    segSum (allocLoop devs n).1 = min n (availSum devs)
  | [], n => by simp [allocLoop, availSum, segSum]
  | bd :: rest, n => by
    by_cases h0 : n = 0
    · subst h0
      constructor
      · simp [allocLoop]
      · simp [allocLoop, segSum]
    · have hbd := request_space_spec bd n
      have ih := allocLoop_spec rest (n - (bd.request_space n).1)
      rw [allocLoop_cons bd rest n h0]
      dsimp only
      constructor
      · simp only [availSum, List.map_cons, List.sum_cons]
        unfold availSum at ih
        omega
      · simp only [segSum, List.map_append, List.sum_append, availSum,
          List.map_cons, List.sum_cons]
        unfold segSum at ih hbd
        unfold availSum at ih
        omega

/-- C3: `alloc_space` returns no allocation exactly when available space is
below the request; any grant's segment lengths sum to the request exactly;
and the defensive assertion after the device loop (the `panicked` outcome,
which is a process abort, not a returned error) never fires. -/
theorem alloc_space_spec (mgr : BlockDevMgr) (size : Nat) :
    (mgr.alloc_space size = .noAlloc ↔ mgr.avail_space < size) ∧
    (∀ segs mgr2, mgr.alloc_space size = .granted segs mgr2 → segSum segs = size) ∧
    mgr.alloc_space size ≠ .panicked := by
  have h := allocLoop_spec mgr.block_devs size
  have havail : mgr.avail_space = availSum mgr.block_devs := rfl
  unfold BlockDevMgr.alloc_space
  by_cases hlt : mgr.avail_space < size
  · simp [hlt]
  · have hrem : (allocLoop mgr.block_devs size).2.2 = 0 := by omega
    refine ⟨by simp [hlt, hrem], ?_, by simp [hlt, hrem]⟩
    intro segs mgr2 heq
    simp only [hlt, if_false, hrem, if_pos] at heq
    cases heq
    omega

/-- Witness for C3: on the two-device fixture the grant for a request of 6
sums to exactly 6. -/
theorem alloc_space_spec_witness :
    segSum [⟨1, 10, 5⟩, ⟨2, 10, 1⟩] = 6 :=
  (alloc_space_spec mgrC3 6).2.1 [⟨1, 10, 5⟩, ⟨2, 10, 1⟩]
    ⟨[⟨1, "n1", ⟨"p", "u1", 10, 100, none⟩, ⟨[]⟩⟩,
      ⟨2, "n2", ⟨"p", "u2", 10, 100, none⟩, ⟨[(11, 2)]⟩⟩]⟩ (by decide)

theorem allocLoopTagged_cons (bd : BlockDev) (rest : List BlockDev) (n : Nat) (h : n ≠ 0) :
    allocLoopTagged (bd :: rest) n =
      ((bd.request_space n).2.1.map (fun s => ⟨bd.bda.dev_uuid, s⟩) ++
         (allocLoopTagged rest (n - (bd.request_space n).1)).1,
       (bd.request_space n).2.2 :: (allocLoopTagged rest (n - (bd.request_space n).1)).2.1,
       (allocLoopTagged rest (n - (bd.request_space n).1)).2.2) := by
  simp [allocLoopTagged, h]

theorem allocLoopTagged_rem : ∀ (devs : List BlockDev) (n : Nat),
    (allocLoopTagged devs n).2.2 = n - availSum devs
  | [], n => by simp [allocLoopTagged, availSum]
  | bd :: rest, n => by
    by_cases h0 : n = 0
    · subst h0
      simp [allocLoopTagged]
    · have hbd := request_space_spec bd n
      have ih := allocLoopTagged_rem rest (n - (bd.request_space n).1)
      rw [allocLoopTagged_cons bd rest n h0]
      dsimp only
      simp only [availSum, List.map_cons, List.sum_cons]
      unfold availSum at ih
      omega

/-- C5: `DataTier::alloc(request)` returns false with the tier unchanged (no
change to the segment list and no change to any device's allocator) when
available space is below the request, and on sufficient space it returns
true with the freshly granted segments coalesced into the tier's segment
list. -/
theorem dataTier_alloc_spec (tier : DataTier) (request : Nat) :
    (tier.block_mgr.avail_space < request →
      tier.alloc request = some (false, tier)) ∧
    (request ≤ tier.block_mgr.avail_space →
      ∃ grants mgr2,
        tier.block_mgr.alloc_space_list [request] = .granted grants mgr2 ∧
        tier.alloc request =
          some (true, ⟨mgr2, coalesce_blkdevsegs tier.segments grants.flatten⟩)) := by
  constructor
  · intro hlt
    unfold DataTier.alloc BlockDevMgr.alloc_space_list
    simp [hlt]
  · intro hge
    have hrem := allocLoopTagged_rem tier.block_mgr.block_devs request
    have havail : tier.block_mgr.avail_space = availSum tier.block_mgr.block_devs := rfl
    have h0 : (allocLoopTagged tier.block_mgr.block_devs request).2.2 = 0 := by omega
    have hq : tier.block_mgr.alloc_space_list [request] =
        .granted [(allocLoopTagged tier.block_mgr.block_devs request).1]
          ⟨(allocLoopTagged tier.block_mgr.block_devs request).2.1⟩ := by
      unfold BlockDevMgr.alloc_space_list
      have hnlt : ¬ tier.block_mgr.avail_space < [request].sum := by
        simp only [List.sum_cons, List.sum_nil, Nat.add_zero]
        omega
      simp only [hnlt, if_false]
      unfold allocMultiGo
      simp [h0, allocMultiGo]
    refine ⟨_, _, hq, ?_⟩
    unfold DataTier.alloc
    rw [hq]

/-- Witness for C5: on a one-device tier with 5 free sectors, a request of
3 succeeds and the tier's segment list receives the coalesced grant. -/
theorem dataTier_alloc_spec_witness :
    3 ≤ tierC5.block_mgr.avail_space ∧
    ∃ grants mgr2,
      tierC5.block_mgr.alloc_space_list [3] = .granted grants mgr2 ∧
      tierC5.alloc 3 =
        some (true, ⟨mgr2, coalesce_blkdevsegs tierC5.segments grants.flatten⟩) :=
  ⟨by decide, (dataTier_alloc_spec tierC5 3).2 (by decide)⟩

theorem setupGo_spec (mgr : BlockDevMgr) : ∀ (triples : List (String × Nat × Nat)),
    ((∀ t ∈ triples, (mgr.uuid_to_devno t.1).isSome) →
      setupGo mgr triples = .ok (triples.filterMap (fun t =>
        (mgr.uuid_to_devno t.1).map (fun d => ⟨t.1, ⟨d, t.2.1, t.2.2⟩⟩)))) ∧
    ((∃ t ∈ triples, mgr.uuid_to_devno t.1 = none) →
      ∃ u, setupGo mgr triples = .error (.engine .NotFound (.missingDevice u)))
  | [] => by
    constructor
    · intro _
      simp [setupGo]
    · rintro ⟨t, ht, -⟩
      exact absurd ht (List.not_mem_nil t)
  | t :: rest => by
    have ih := setupGo_spec mgr rest
    constructor
    · intro hall
      have ht := hall t (List.mem_cons_self t rest)
      obtain ⟨d, hd⟩ := Option.isSome_iff_exists.mp ht
      have hrest := ih.1 (fun x hx => hall x (List.mem_cons_of_mem t hx))
      simp only [setupGo, setupMapper, hd, hrest, List.filterMap_cons]
      simp
    · rintro ⟨x, hx, hnone⟩
      rcases List.mem_cons.mp hx with rfl | hx2
      · exact ⟨x.1, by simp [setupGo, setupMapper, hnone]⟩
      · cases hsome : mgr.uuid_to_devno t.1 with
        | none => exact ⟨t.1, by simp [setupGo, setupMapper, hsome]⟩
        | some d =>
          obtain ⟨u, hu⟩ := ih.2 ⟨x, hx2, hnone⟩
          exact ⟨u, by simp [setupGo, setupMapper, hsome, hu]⟩

/-- C9: `DataTier::setup` fails with a NotFound-class error exactly when
some persisted triple names a device UUID absent from the manager; when
every UUID resolves, it returns the tier over that manager whose segment
list is exactly the input triples resolved to their live device numbers,
in input order. -/
theorem dataTier_setup_spec (mgr : BlockDevMgr) (triples : List (String × Nat × Nat)) :
    ((∀ t ∈ triples, (mgr.uuid_to_devno t.1).isSome) →
      DataTier.setup mgr triples = .ok ⟨mgr, triples.filterMap (fun t =>
        (mgr.uuid_to_devno t.1).map (fun d => ⟨t.1, ⟨d, t.2.1, t.2.2⟩⟩))⟩) ∧
    ((∃ t ∈ triples, mgr.uuid_to_devno t.1 = none) →
      ∃ u, DataTier.setup mgr triples = .error (.engine .NotFound (.missingDevice u))) := by
  have h := setupGo_spec mgr triples
  constructor
  · intro hall
    unfold DataTier.setup
    rw [h.1 hall]
  · intro hex
    obtain ⟨u, hu⟩ := h.2 hex
    exact ⟨u, by unfold DataTier.setup; rw [hu]⟩

/-- Witness for C9: the one-device fixture resolves the only triple and the
tier's segments are exactly the resolved triple. -/
theorem dataTier_setup_spec_witness :
    (∀ t ∈ triplesC9, (mgrC9.uuid_to_devno t.1).isSome) ∧
    DataTier.setup mgrC9 triplesC9 = .ok ⟨mgrC9, triplesC9.filterMap (fun t =>
      (mgrC9.uuid_to_devno t.1).map (fun d => ⟨t.1, ⟨d, t.2.1, t.2.2⟩⟩))⟩ :=
  ⟨by decide, (dataTier_setup_spec mgrC9 triplesC9).1 (by decide)⟩

/-! ## Filter phase -/

theorem filter_devs_small (env : Env) (pool_uuid : String) (force : Bool) :
    ∀ (devices : List Nat),
    (∀ d ∈ devices, ∃ info, env.devInfo d = .ok info) →
    (∃ d ∈ devices, ∃ info, env.devInfo d = .ok info ∧ info.dev_size < MIN_DEV_SIZE) →
    ∃ m, filter_devs (devices.map (fun d => (d, env.devInfo d))) pool_uuid force =
      .error (.engine .Invalid m)
  | [], _, hsmall => by
    obtain ⟨d, hd, -⟩ := hsmall
    exact absurd hd (List.not_mem_nil d)
  | d :: rest, hok, hsmall => by
    obtain ⟨info, hinfo⟩ := hok d (List.mem_cons_self d rest)
    by_cases hlt : info.dev_size < MIN_DEV_SIZE
    · exact ⟨.devTooSmall info.devnode, by simp [filter_devs, hinfo, hlt]⟩
    · have hrest : ∃ x ∈ rest, ∃ i, env.devInfo x = .ok i ∧ i.dev_size < MIN_DEV_SIZE := by
        obtain ⟨x, hx, infox, hinfox, hltx⟩ := hsmall
        rcases List.mem_cons.mp hx with rfl | hx2
        · rw [hinfo] at hinfox
          cases hinfox
          exact absurd hltx hlt
        · exact ⟨x, hx2, infox, hinfox, hltx⟩
      obtain ⟨m, hm⟩ := filter_devs_small env pool_uuid force rest
        (fun x hx => hok x (List.mem_cons_of_mem d hx)) hrest
      cases ho : info.ownership with
      | Unowned => exact ⟨m, by simp [filter_devs, hinfo, hlt, ho, hm]⟩
      | Theirs =>
        cases force with
        | true => exact ⟨m, by simp [filter_devs, hinfo, hlt, ho, hm]⟩
        | false => exact ⟨.belongsToOther info.devnode, by simp [filter_devs, hinfo, hlt, ho]⟩
      | Ours u =>
        by_cases hu : pool_uuid = u
        · subst hu
          exact ⟨m, by simp [filter_devs, hinfo, hlt, ho, hm]⟩
        · exact ⟨.belongsToPool info.devnode u, by simp [filter_devs, hinfo, hlt, ho, hu]⟩

/-- C2: if every candidate's info gathers successfully and some candidate is
below `MIN_DEV_SIZE`, then the whole batch fails with an InvalidInput-class
error, and — the size/ownership filter and the metadata-area-size check
both running before the write phase — the action trace is empty: no device
received any metadata write or wipe. -/
theorem init_devs_small_device (env : Env) (pool_uuid : String) (devices : List Nat)
    (mda_size : Nat) (force : Bool)
    (hok : ∀ d ∈ devices, ∃ info, env.devInfo d = .ok info)
    (hsmall : ∃ d ∈ devices, ∃ info, env.devInfo d = .ok info ∧ info.dev_size < MIN_DEV_SIZE) :
    (∃ m, (init_devs env pool_uuid devices mda_size force).1 = .error (.engine .Invalid m)) ∧
    (init_devs env pool_uuid devices mda_size force).2 = [] := by
  unfold init_devs
  cases hv : validate_mda_size mda_size with
  | error e =>
    unfold validate_mda_size at hv
    split at hv
    · cases hv
      exact ⟨⟨_, rfl⟩, rfl⟩
    · cases hv
  | ok u =>
    obtain ⟨m, hm⟩ := filter_devs_small env pool_uuid force devices hok hsmall
    rw [hm]
    exact ⟨⟨m, rfl⟩, rfl⟩

/-- Witness for C2: a single 100-byte device makes the batch fail Invalid
with an empty write trace. -/
theorem init_devs_small_device_witness :
    (∃ m, (init_devs envC2 "p" [1] MIN_MDA_SECTORS true).1 = .error (.engine .Invalid m)) ∧
    (init_devs envC2 "p" [1] MIN_MDA_SECTORS true).2 = [] :=
  init_devs_small_device envC2 "p" [1] MIN_MDA_SECTORS true
    (fun d hd => ⟨⟨"n1", 100, .Unowned⟩, by
      have h := List.mem_singleton.mp hd
      subst h
      rfl⟩)
    ⟨1, List.mem_singleton.mpr rfl, ⟨"n1", 100, .Unowned⟩, rfl, by decide⟩

/-- C4: characterization of the ownership handling of the filter phase, for
batches whose infos gathered successfully and whose sizes pass the minimum:
if every candidate's ownership is admissible (unowned, foreign with force,
or ours under the same pool identity) the filter succeeds and admits
exactly the unowned and forced-foreign devices in order, silently skipping
the ours-same-pool ones; if any candidate's ownership is inadmissible
(foreign without force, or ours under a different pool identity) the whole
batch is rejected with an InvalidInput-class error. -/
theorem filter_devs_ownership (pool_uuid : String) (force : Bool) :
    ∀ (infos : List (Nat × DevInfo)),
    (∀ p ∈ infos, MIN_DEV_SIZE ≤ p.2.dev_size) →
    ((∀ p ∈ infos, admissibleOwnership pool_uuid force p.2.ownership) →
      filter_devs (infos.map (fun p => (p.1, Except.ok p.2))) pool_uuid force =
        .ok ((infos.filter (fun p => admittedOwnership p.2.ownership)).map
          (fun p => ⟨p.1, p.2.devnode, p.2.dev_size⟩))) ∧
    ((∃ p ∈ infos, ¬ admissibleOwnership pool_uuid force p.2.ownership) →
      ∃ m, filter_devs (infos.map (fun p => (p.1, Except.ok p.2))) pool_uuid force =
        .error (.engine .Invalid m))
  | [] => by
    intro _
    constructor
    · intro _
      simp [filter_devs]
    · rintro ⟨p, hp, -⟩
      exact absurd hp (List.not_mem_nil p)
  | (d, info) :: rest => by
    intro hsize
    have ih := filter_devs_ownership pool_uuid force rest
      (fun p hp => hsize p (List.mem_cons_of_mem _ hp))
    have hs : ¬ info.dev_size < MIN_DEV_SIZE :=
      Nat.not_lt.mpr (hsize (d, info) (List.mem_cons_self _ rest))
    constructor
    · intro hall
      have hhead := hall (d, info) (List.mem_cons_self _ rest)
      have htail := ih.1 (fun p hp => hall p (List.mem_cons_of_mem _ hp))
      cases ho : info.ownership with
      | Unowned =>
        simp [filter_devs, hs, ho, htail, List.filter_cons, admittedOwnership]
      | Theirs =>
        have hf : force = true := by
          rcases hhead with h1 | ⟨-, h2⟩ | h3
          · rw [ho] at h1; cases h1
          · exact h2
          · rw [ho] at h3; cases h3
        subst hf
        simp [filter_devs, hs, ho, htail, List.filter_cons, admittedOwnership]
      | Ours u =>
        have hu : u = pool_uuid := by
          rcases hhead with h1 | ⟨h2, -⟩ | h3
          · rw [ho] at h1; cases h1
          · rw [ho] at h2; cases h2
          · rw [ho] at h3
            cases h3
            rfl
        subst hu
        simp [filter_devs, hs, ho, htail, List.filter_cons, admittedOwnership]
    · rintro ⟨p, hp, hbad⟩
      rcases List.mem_cons.mp hp with rfl | hp2
      · cases ho : info.ownership with
        | Unowned => exact absurd (Or.inl ho) hbad
        | Theirs =>
          cases force with
          | true => exact absurd (Or.inr (Or.inl ⟨ho, rfl⟩)) hbad
          | false => exact ⟨.belongsToOther info.devnode, by simp [filter_devs, hs, ho]⟩
        | Ours u =>
          have hu : pool_uuid ≠ u := by
            intro h
            exact hbad (Or.inr (Or.inr (by rw [ho, h])))
          exact ⟨.belongsToPool info.devnode u, by simp [filter_devs, hs, ho, hu]⟩
      · obtain ⟨m, hm⟩ := ih.2 ⟨p, hp2, hbad⟩
        cases ho : info.ownership with
        | Unowned => exact ⟨m, by simp [filter_devs, hs, ho, hm]⟩
        | Theirs =>
          cases force with
          | true => exact ⟨m, by simp [filter_devs, hs, ho, hm]⟩
          | false => exact ⟨.belongsToOther info.devnode, by simp [filter_devs, hs, ho]⟩
        | Ours u =>
          by_cases hu : pool_uuid = u
          · subst hu
            exact ⟨m, by simp [filter_devs, hs, ho, hm]⟩
          · exact ⟨.belongsToPool info.devnode u, by simp [filter_devs, hs, ho, hu]⟩

/-- Witness for C4: with force set, the fixture batch (an unowned device, a
foreign device, and a device of this very pool) is admitted as exactly the
first two, the ours-same-pool device being silently skipped. -/
theorem filter_devs_ownership_witness :
    (∀ p ∈ infosC4, MIN_DEV_SIZE ≤ p.2.dev_size) ∧
    filter_devs (infosC4.map (fun p => (p.1, Except.ok p.2))) "p" true =
      .ok [⟨1, "n1", bigSize⟩, ⟨4, "n4", bigSize⟩] :=
  ⟨by decide, by
    have h := (filter_devs_ownership "p" true infosC4 (by decide)).1 (by decide)
    simpa using h⟩

/-! ## Write phase rollback -/

theorem map_mk_wipe (env : Env) (pool_uuid : String) (mda_size : Nat) (pre : List AdmDev) :
    (pre.map (mkBlockDev env pool_uuid mda_size)).map
        (fun bd => DevAction.wipeMetaAttempt bd.dev) =
      pre.map (fun a => DevAction.wipeMetaAttempt a.dev) := by
  simp only [List.map_map]
  rfl

theorem filter_mk_unerased (env : Env) (pool_uuid : String) (mda_size : Nat)
    (pre : List AdmDev) :
    ((pre.map (mkBlockDev env pool_uuid mda_size)).filter
        (fun bd => (env.wipeMeta bd.dev).isSome)).map BlockDev.devnode =
      (pre.filter (fun a => (env.wipeMeta a.dev).isSome)).map AdmDev.devnode := by
  induction pre with
  | nil => rfl
  | cons a rest ih =>
    by_cases h : (env.wipeMeta a.dev).isSome
    · simp [List.filter_cons, mkBlockDev, h, ih]
    · simp [List.filter_cons, mkBlockDev, h, ih]

theorem write_phase_fail (env : Env) (pool_uuid : String) (mda_size : Nat)
    (dv : AdmDev) (hdv : env.bdaInit dv.dev = none) :
    ∀ (pre : List AdmDev) (post : List AdmDev) (bds : List BlockDev),
    (∀ a ∈ pre, (env.bdaInit a.dev).isSome) →
    write_phase env pool_uuid mda_size (pre ++ dv :: post) bds =
      (.error (.engine .Error (.initFailed dv.devnode
        ((if (env.bdaWipe dv.dev).isSome then [dv.devnode] else []) ++
          ((bds ++ pre.map (mkBlockDev env pool_uuid mda_size)).filter
            (fun bd => (env.wipeMeta bd.dev).isSome)).map BlockDev.devnode))),
       pre.map (fun a => DevAction.bdaInitAttempt a.dev) ++
         [.bdaInitAttempt dv.dev, .bdaWipeAttempt dv.dev] ++
         (bds ++ pre.map (mkBlockDev env pool_uuid mda_size)).map
           (fun bd => DevAction.wipeMetaAttempt bd.dev))
  | [], post, bds, _ => by
    simp [write_phase, hdv]
  | a :: pre, post, bds, hpre => by
    obtain ⟨u, hu⟩ := Option.isSome_iff_exists.mp (hpre a (List.mem_cons_self a pre))
    have hmk : mkBlockDev env pool_uuid mda_size a =
        ⟨a.dev, a.devnode,
         ⟨pool_uuid, u, mda_size, Bytes.sectors a.dev_size, none⟩,
         RangeAllocator.new (Bytes.sectors a.dev_size) mda_size⟩ := by
      simp [mkBlockDev, hu, BDA.size]
    have ih := write_phase_fail env pool_uuid mda_size dv hdv pre post
      (bds ++ [mkBlockDev env pool_uuid mda_size a])
      (fun x hx => hpre x (List.mem_cons_of_mem a hx))
    simp only [List.cons_append, write_phase, hu]
    simp only [List.append_eq, BDA.size]
    rw [hmk] at ih
    rw [ih]
    simp [List.append_assoc, mkBlockDev, hu, BDA.size]

/-- C1: if the write phase of `initialize` fails at some admitted device
(every admitted device before it having been written successfully), then
the whole call returns an Error-kind error that names the failing device
node together with the list of device nodes whose rollback erasure also
failed, the trace shows a wipe attempted on the failing device and on
every previously written device of the batch, and no initialized records
are returned. -/
theorem init_devs_write_failure (env : Env) (pool_uuid : String) (devices : List Nat)
    (mda_size : Nat) (force : Bool) (pre : List AdmDev) (dv : AdmDev) (post : List AdmDev)
    (hmda : validate_mda_size mda_size = .ok ())
    (hfd : filter_devs (devices.map (fun d => (d, env.devInfo d))) pool_uuid force =
      .ok (pre ++ dv :: post))
    (hpre : ∀ a ∈ pre, (env.bdaInit a.dev).isSome)
    (hdv : env.bdaInit dv.dev = none) :
    init_devs env pool_uuid devices mda_size force =
      (.error (.engine .Error (.initFailed dv.devnode (rollbackUnerased env dv pre))),
       pre.map (fun a => DevAction.bdaInitAttempt a.dev) ++
         [.bdaInitAttempt dv.dev, .bdaWipeAttempt dv.dev] ++
         pre.map (fun a => DevAction.wipeMetaAttempt a.dev)) := by
  unfold init_devs
  rw [hmda, hfd]
  dsimp only
  rw [write_phase_fail env pool_uuid mda_size dv hdv pre post [] hpre]
  simp only [List.nil_append]
  rw [filter_mk_unerased, map_mk_wipe]
  rfl

/-- Witness for C1: with device 1 written and device 2 failing its header
write, and the rollback wipe of device 1 failing, `initialize` reports the
failure on n2 together with the unerased node n1, after having attempted
wipes of both devices. -/
theorem init_devs_write_failure_witness :
    init_devs envC1 "p" [1, 2] MIN_MDA_SECTORS true =
      (.error (.engine .Error (.initFailed "n2" ["n1"])),
       [.bdaInitAttempt 1, .bdaInitAttempt 2, .bdaWipeAttempt 2, .wipeMetaAttempt 1]) := by
  have h := init_devs_write_failure envC1 "p" [1, 2] MIN_MDA_SECTORS true
    [⟨1, "n1", bigSize⟩] ⟨2, "n2", bigSize⟩ [] rfl rfl (by decide) rfl
  simpa using h

/-! ## save_state and destroy_all -/

/-- C6: the code diverges from the claim. On a manager whose only device
was last stamped at time 10, a save at the non-strictly-greater time 10
makes `BlockDevMgr::save_state` panic (the `.unwrap()` of the per-device
save), instead of returning the usage error to the caller as the claim
requires; the `SaveOutcome` type records that the loop can only succeed or
panic, never return the error. -/
theorem save_state_panics_on_stale_timestamp :
    BlockDevMgr.save_state envC6 mgrC6 10 [] =
      .panicked (.engine .Usage (.staleTimestamp "n6")) := by
  decide

/-- C7 counterexample: with two devices and the first failing to wipe,
`destroy_all` returns the first error without ever attempting the second
device, contradicting the claim that every remaining device is still
attempted. -/
theorem destroy_all_counterexample :
    (BlockDevMgr.destroy_all envC7 mgrC7).1 = .error (.Io (.wipeFailed "n1")) ∧
    DevAction.wipeMetaAttempt 2 ∉ (BlockDevMgr.destroy_all envC7 mgrC7).2 :=
  ⟨rfl, by decide⟩

/-- C7 (amended): `destroy_all` wipes the devices in order but stops at the
first failure: the devices before the failing one are attempted, the
failing device's error is returned to the caller, and no device after the
failing one is attempted. -/
theorem destroy_all_stops_at_first_failure (env : Env) (e : EngineError) (bd : BlockDev)
    (hbd : env.wipeMeta bd.dev = some e) :
    ∀ (pre post : List BlockDev),
    (∀ b ∈ pre, env.wipeMeta b.dev = none) →
    BlockDevMgr.destroy_all env ⟨pre ++ bd :: post⟩ =
      (.error e, (pre ++ [bd]).map (fun b => DevAction.wipeMetaAttempt b.dev))
  | [], post, _ => by
    simp [BlockDevMgr.destroy_all, destroyGo, hbd]
  | b :: pre, post, hpre => by
    have hb := hpre b (List.mem_cons_self b pre)
    have ih := destroy_all_stops_at_first_failure env e bd hbd pre post
      (fun x hx => hpre x (List.mem_cons_of_mem b hx))
    simp only [BlockDevMgr.destroy_all] at ih
    simp only [BlockDevMgr.destroy_all, List.cons_append, destroyGo, hb]
    simp only [List.append_eq]
    rw [ih]
    simp

/-- Witness for C7 (amended): on the two-device fixture the wipe loop
returns the first device's error having attempted only that device. -/
theorem destroy_all_stops_at_first_failure_witness :
    BlockDevMgr.destroy_all envC7 mgrC7 =
      (.error (.Io (.wipeFailed "n1")), [DevAction.wipeMetaAttempt 1]) := by
  have h := destroy_all_stops_at_first_failure envC7 (.Io (.wipeFailed "n1"))
    ⟨1, "n1", ⟨"p", "u1", 10, 100, none⟩, ⟨[(10, 5)]⟩⟩ rfl []
    [⟨2, "n2", ⟨"p", "u2", 10, 100, none⟩, ⟨[(10, 3)]⟩⟩]
    (fun b hb => absurd hb (List.not_mem_nil b))
  exact h

/-! ## Admission provenance -/

theorem filter_devs_mem (pool_uuid : String) (force : Bool) :
    ∀ (input : List (Nat × Except EngineError DevInfo)) (l : List AdmDev),
    filter_devs input pool_uuid force = .ok l →
    ∀ a ∈ l, ∃ info, (a.dev, Except.ok info) ∈ input ∧
      a.devnode = info.devnode ∧
      (info.ownership = .Unowned ∨ info.ownership = .Theirs)
  | [], l, h, a, ha => by
    simp only [filter_devs, Except.ok.injEq] at h
    subst h
    exact absurd ha (List.not_mem_nil a)
  | (d, r) :: rest, l, h, a, ha => by
    cases r with
    | error e => simp [filter_devs] at h
    | ok info =>
      by_cases hlt : info.dev_size < MIN_DEV_SIZE
      · simp [filter_devs, hlt] at h
      · cases ho : info.ownership with
        | Unowned =>
          simp only [filter_devs, hlt, if_false, ho] at h
          cases hrec : filter_devs rest pool_uuid force with
          | error e => rw [hrec] at h; cases h
          | ok l2 =>
            rw [hrec] at h
            cases h
            rcases List.mem_cons.mp ha with rfl | ha2
            · exact ⟨info, List.mem_cons_self _ _, rfl, Or.inl ho⟩
            · obtain ⟨i, hi, hdn, how⟩ := filter_devs_mem pool_uuid force rest l2 hrec a ha2
              exact ⟨i, List.mem_cons_of_mem _ hi, hdn, how⟩
        | Theirs =>
          cases force with
          | false => simp [filter_devs, hlt, ho] at h
          | true =>
            simp only [filter_devs, hlt, if_false, ho, Bool.not_true] at h
            cases hrec : filter_devs rest pool_uuid true with
            | error e => rw [hrec] at h; cases h
            | ok l2 =>
              rw [hrec] at h
              cases h
              rcases List.mem_cons.mp ha with rfl | ha2
              · exact ⟨info, List.mem_cons_self _ _, rfl, Or.inr ho⟩
              · obtain ⟨i, hi, hdn, how⟩ := filter_devs_mem pool_uuid true rest l2 hrec a ha2
                exact ⟨i, List.mem_cons_of_mem _ hi, hdn, how⟩
        | Ours u =>
          by_cases hu : pool_uuid = u
          · subst hu
            simp only [filter_devs, hlt, if_false, ho, ne_eq, not_true_eq_false,
              reduceIte] at h
            obtain ⟨i, hi, hdn, how⟩ := filter_devs_mem pool_uuid force rest l h a ha
            exact ⟨i, List.mem_cons_of_mem _ hi, hdn, how⟩
          · simp [filter_devs, hlt, ho, hu] at h

theorem write_phase_ok_mem (env : Env) (pool_uuid : String) (mda_size : Nat) :
    ∀ (l : List AdmDev) (acc : List BlockDev) (bds : List BlockDev) (tr : List DevAction),
    write_phase env pool_uuid mda_size l acc = (.ok bds, tr) →
    ∀ b ∈ bds, b ∈ acc ∨ ∃ a ∈ l, b.dev = a.dev ∧ b.devnode = a.devnode ∧
      b.bda.mda_size = mda_size
  | [], acc, bds, tr, h, b, hb => by
    simp only [write_phase, Prod.mk.injEq, Except.ok.injEq] at h
    exact Or.inl (h.1 ▸ hb)
  | a :: rest, acc, bds, tr, h, b, hb => by
    cases hu : env.bdaInit a.dev with
    | none => simp [write_phase, hu] at h
    | some u =>
      simp only [write_phase, hu, Prod.mk.injEq] at h
      have hrec : write_phase env pool_uuid mda_size rest
          (acc ++ [⟨a.dev, a.devnode,
            ⟨pool_uuid, u, mda_size, Bytes.sectors a.dev_size, none⟩,
            RangeAllocator.new (Bytes.sectors a.dev_size)
              (BDA.size ⟨pool_uuid, u, mda_size, Bytes.sectors a.dev_size, none⟩)⟩]) =
          (.ok bds, (write_phase env pool_uuid mda_size rest
            (acc ++ [⟨a.dev, a.devnode,
              ⟨pool_uuid, u, mda_size, Bytes.sectors a.dev_size, none⟩,
              RangeAllocator.new (Bytes.sectors a.dev_size)
                (BDA.size ⟨pool_uuid, u, mda_size, Bytes.sectors a.dev_size, none⟩)⟩])).2) := by
        rw [← h.1]
      have := write_phase_ok_mem env pool_uuid mda_size rest _ bds _ hrec b hb
      rcases this with hacc | ⟨x, hx, hxs⟩
      · rcases List.mem_append.mp hacc with h1 | h2
        · exact Or.inl h1
        · rcases List.mem_singleton.mp h2 with rfl
          exact Or.inr ⟨a, List.mem_cons_self _ _, rfl, rfl, rfl⟩
      · exact Or.inr ⟨x, List.mem_cons_of_mem _ hx, hxs⟩

theorem init_devs_ok_mem (env : Env) (pool_uuid : String) (devices : List Nat)
    (mda_size : Nat) (force : Bool) (bds : List BlockDev) (tr : List DevAction)
    (h : init_devs env pool_uuid devices mda_size force = (.ok bds, tr)) :
    ∀ b ∈ bds, b.bda.mda_size = mda_size ∧
      ∃ info, env.devInfo b.dev = .ok info ∧
        (info.ownership = .Unowned ∨ info.ownership = .Theirs) := by
  intro b hb
  unfold init_devs at h
  cases hv : validate_mda_size mda_size with
  | error e =>
    rw [hv] at h
    cases h
  | ok u =>
    rw [hv] at h
    cases hfd : filter_devs (devices.map (fun d => (d, env.devInfo d))) pool_uuid force with
    | error e =>
      rw [hfd] at h
      cases h
    | ok add_devs =>
      rw [hfd] at h
      have hmem := write_phase_ok_mem env pool_uuid mda_size add_devs [] bds tr h b hb
      rcases hmem with habs | ⟨a, ha, hdev, hdn, hmda⟩
      · exact absurd habs (List.not_mem_nil b)
      · obtain ⟨info, hin, hdn2, how⟩ := filter_devs_mem pool_uuid force _ add_devs hfd a ha
        obtain ⟨d0, hd0, heq⟩ := List.mem_map.mp hin
        have hd : d0 = a.dev := congrArg Prod.fst heq
        have hinfo : env.devInfo a.dev = .ok info := by
          have := congrArg Prod.snd heq
          simpa [hd] using this
        exact ⟨hmda, info, hdev ▸ hinfo, how⟩

/-- C8 counterexample: on the fixture run, `add` returns the device node
path n8 of the newly admitted device, while that device's freshly
generated UUID, u8, is nowhere in the returned list — so the returned list
does not contain the UUIDs of the newly admitted devices. -/
theorem add_returns_devnodes_not_uuids :
    (BlockDevMgr.add envC8 mgrC8 "p" ["p8"] false).1 =
      .ok (["n8"], ⟨mgrC8.block_devs ++ [bdC8]⟩) ∧
    bdC8.bda.dev_uuid = "u8" ∧ ("u8" : String) ∉ (["n8"] : List String) :=
  ⟨rfl, rfl, by decide⟩

/-- C8 (amended): every successful `add` returns exactly the device node
paths (not the UUIDs) of the newly admitted Device Records, in admission
order, and appends exactly those records to the collection; a device whose
on-disk header marks it as owned by this very pool is never among the
newly admitted records, so it does not appear a second time in the
collection after the call. -/
theorem add_spec (env : Env) (mgr : BlockDevMgr) (pool_uuid : String)
    (paths : List String) (force : Bool) (devices : List Nat)
    (bds : List BlockDev) (tr : List DevAction)
    (hres : resolve_devices env paths = .ok devices)
    (hinit : init_devs env pool_uuid devices MIN_MDA_SECTORS force = (.ok bds, tr)) :
    BlockDevMgr.add env mgr pool_uuid paths force =
      (.ok (bds.map BlockDev.devnode, ⟨mgr.block_devs ++ bds⟩), tr) ∧
    ∀ d info, env.devInfo d = .ok info → info.ownership = .Ours pool_uuid →
      ∀ b ∈ bds, b.dev ≠ d := by
  constructor
  · unfold BlockDevMgr.add
    rw [hres]
    dsimp only
    rw [hinit]
  · intro d info hinfo ho b hb hbd
    obtain ⟨-, info2, hinfo2, how⟩ := init_devs_ok_mem env pool_uuid devices
      MIN_MDA_SECTORS force bds tr hinit b hb
    rw [hbd, hinfo] at hinfo2
    cases hinfo2
    rcases how with h1 | h1 <;> rw [ho] at h1 <;> cases h1

/-- Witness for C8 (amended): the fixture `add` of path p8 returns the node
list of the new record and appends it, and no ours-same-pool device is
among the new records. -/
theorem add_spec_witness :
    BlockDevMgr.add envC8 mgrC8 "p" ["p8"] false =
      (.ok ([bdC8].map BlockDev.devnode, ⟨mgrC8.block_devs ++ [bdC8]⟩),
        [.bdaInitAttempt 8]) ∧
    ∀ d info, envC8.devInfo d = .ok info → info.ownership = .Ours "p" →
      ∀ b ∈ [bdC8], b.dev ≠ d :=
  add_spec envC8 mgrC8 "p" ["p8"] false [8] [bdC8] [.bdaInitAttempt 8] rfl rfl

/-- C10: whatever metadata-area size the manager's existing devices were
created with, every Device Record newly admitted by a successful `add`
carries exactly `MIN_MDA_SECTORS` as its metadata-area size; `add` passes
the constant itself and exposes no parameter to choose it. -/
theorem add_uses_min_mda (env : Env) (mgr : BlockDevMgr) (pool_uuid : String)
    (paths : List String) (force : Bool) (ret : List String) (mgr2 : BlockDevMgr)
    (tr : List DevAction)
    (h : BlockDevMgr.add env mgr pool_uuid paths force = (.ok (ret, mgr2), tr)) :
    ∃ bds, mgr2.block_devs = mgr.block_devs ++ bds ∧
      ret = bds.map BlockDev.devnode ∧
      ∀ b ∈ bds, b.bda.mda_size = MIN_MDA_SECTORS := by
  unfold BlockDevMgr.add at h
  cases hres : resolve_devices env paths with
  | error e =>
    rw [hres] at h
    cases h
  | ok devices =>
    rw [hres] at h
    dsimp only at h
    cases hinit : (init_devs env pool_uuid devices MIN_MDA_SECTORS force) with
    | mk r tr2 =>
      rw [hinit] at h
      cases r with
      | error e => simp at h
      | ok bds =>
        simp only [Prod.mk.injEq, Except.ok.injEq] at h
        obtain ⟨⟨hret, hmgr⟩, htr⟩ := h
        refine ⟨bds, ?_, hret.symm, ?_⟩
        · rw [← hmgr]
        · intro b hb
          exact (init_devs_ok_mem env pool_uuid devices MIN_MDA_SECTORS force bds tr2
            hinit b hb).1

/-- Witness for C10: the record newly admitted by the fixture `add` carries
`MIN_MDA_SECTORS`, although the manager's pre-existing device carries a
different metadata-area size. -/
theorem add_uses_min_mda_witness :
    ∃ bds, (⟨mgrC8.block_devs ++ [bdC8]⟩ : BlockDevMgr).block_devs =
        mgrC8.block_devs ++ bds ∧
      (["n8"] : List String) = bds.map BlockDev.devnode ∧
      ∀ b ∈ bds, b.bda.mda_size = MIN_MDA_SECTORS :=
  add_uses_min_mda envC8 mgrC8 "p" ["p8"] false ["n8"]
    ⟨mgrC8.block_devs ++ [bdC8]⟩ [.bdaInitAttempt 8] rfl
